import Mathlib

/-!
Shallow embedding of the `handlers` pipeline engine (Go).

The repository carries two variants of the pipeline:
* variant 1 — `handlers.go`: void `Run`, optional result handler whose
  aggregation step runs after the drain loop;
* variant 2 — the fail-fast file: `Run` returns an error, `ErrCheck`
  decides whether a per-source error aborts the run, `srcDone` is called
  after each source.

Modelling conventions:
* `interface{}` data values are `GoVal`; Go `error` is `Option GoErr`
  (`none` = nil, `GoErr.eof` = `io.EOF`, `GoErr.hard` = any other error).
* a `*safeList` field is `Option (List _)` (`none` = the nil pointer,
  `some l` = an allocated list holding `l`); in the fail-fast variant,
  whose `newSafeList` allocates with `list.New`, lazy double-checked
  initialization becomes `Option.getD _ []`. The void variant's own
  allocator is `new(safeList)`, which leaves the embedded `*list.List`
  nil so that the following `PushBack` panics; that registration fault is
  modelled by `addSrc1`, which tracks the embedded pointer. `HState1`
  therefore posits queue contents directly (what `Run` does given a
  queue), while `addSrc1` is how this variant's registration behaves.
* a `Source` is its deterministic call-by-call behaviour
  `Nat → GoVal × Option GoErr` (result of the k-th `Next` call).
* loops whose exit depends on source/handler behaviour take explicit fuel;
  running out of fuel is reported as a distinct outcome, never conflated
  with normal return.
* `container/list.Remove` requires a non-nil element; `popSrc` calls it
  (and dereferences `ele.Value`) on the `Front()` of the queue without a
  nil check, so popping an initialized empty queue is modelled as
  `PopRes.panicked`.
* handlers in the repository are stateful only through `Result()`'s
  snapshot; no claim depends on in-run mutation, so a handler is its
  (pure) transform together with its id and result snapshot.
-/

namespace Handlers

/-- Go `error` values distinguished by the engine: `io.EOF` versus any
other (hard) error. `Option GoErr` stands for `error`, `none` = nil. -/
inductive GoErr where
  | eof
  | hard (msg : String)
deriving DecidableEq

/-- `interface{}` payloads that flow through the pipeline. -/
inductive GoVal where
  | nil
  | str (s : String)
  | int (n : Int)
deriving DecidableEq

/-- `Handlers` state constants `StatusInit`, `StatusRunning`, `StatusStop`. -/
inductive Status where
  | init
  | running
  | stop
deriving DecidableEq

/-- A `Source`: the pair returned by its k-th `Next()` call. -/
def Src : Type := Nat → GoVal × Option GoErr

/-- Variant-1 `Handler` interface: `ID`, `Handle`, `Result`. -/
structure Hdl1 where
  id : String
  handle : GoVal → GoVal
  result : GoVal

/-- Variant-2 `Handler` interface: only `Handle`, which also returns an
error (the `HandlerFunc` shape). -/
structure Hdl2 where
  handle : GoVal → GoVal × Option GoErr

/-- Result of `popSrc`: nil queue returns nil, a head element is removed
and returned; on an initialized empty queue `Front()` is nil and both
`Remove(ele)` and `ele.Value.(Source)` dereference nil — a panic. -/
inductive PopRes where
  | panicked
  | noSrc
  | src (s : Src) (rest : Option (List Src))

/-- `popSrc` (same body in both variants). -/
def popSrc : Option (List Src) → PopRes
  | none => .noSrc
  | some [] => .panicked
  | some (s :: rest) => .src s (some rest)

/-- A void-variant (`handlers.go`) `*safeList` with its embedded
`*list.List` pointer tracked: `none` = nil `*safeList`; `some none` =
allocated by `new(safeList)`, embedded list still the nil pointer;
`some (some l)` = embedded list allocated, holding `l`. -/
def SafeList1 : Type := Option (Option (List Src))

/-- `handlers.go`'s `AddSrc`: when `todoSrc` is nil, the lazy
double-checked initialization sets it to `new(safeList)`, which leaves
the embedded `*list.List` nil; the unconditional `PushBack` then runs
`lazyInit` on that nil receiver, dereferencing it — a panic, modelled as
the outer `none`. Appending succeeds only on an embedded list that is
already allocated, which no code path of this variant produces (the
fail-fast variant's `newSafeList` is exactly that missing allocation),
so this variant can never register a source. -/
def addSrc1 (todo : SafeList1) (s : Src) : Option SafeList1 :=
  match todo.getD none with
  | none => none
  | some l => some (some (some (l ++ [s])))

/-- The fail-fast variant's `AddSrc`: its lazy initialization uses
`newSafeList`, whose `list.New()` allocates the embedded list, so
`PushBack` appends at the tail. -/
def addSrc2 (todo : Option (List Src)) (s : Src) : Option (List Src) :=
  some (todo.getD [] ++ [s])

/-- Register a list of sources in order (repeated fail-fast `AddSrc`). -/
def addAll2 (l : List Src) : Option (List Src) :=
  l.foldl addSrc2 none

/-- `srcDone` as the fail-fast variant's `Run` calls it: lazily
initialize `doneSrc` (`newSafeList`), then `PushBack`. The void variant
declares `srcDone` too, but its `Run` never calls it. -/
def srcDone (done : Option (List Src)) (s : Src) : Option (List Src) :=
  some (done.getD [] ++ [s])

/-- Variant-1 inner loop of `handleSrc`:
`for e := h.handlers.Front(); e != nil; e = e.Next() { d = e.Value.(Handler).Handle(d) }`. -/
def chainLoop1 : List Hdl1 → GoVal → GoVal
  | [], d => d
  | h :: t, d => chainLoop1 t (h.handle d)

/-- Variant-2 inner loop: `d, err = e.Value.(Handler).Handle(d)` — note the
pair `(d, err)` is wholly replaced by each handler's return. -/
def chainLoop2 : List Hdl2 → GoVal × Option GoErr → GoVal × Option GoErr
  | [], p => p
  | h :: t, p => chainLoop2 t (h.handle p.1)

/-- Instrumented variant-1 chain: the (input, output) pair seen at each
handler of the chain, in chain order. -/
def chainSteps : List Hdl1 → GoVal → List (GoVal × GoVal)
  | [], _ => []
  | h :: t, d => (d, h.handle d) :: chainSteps t (h.handle d)

/-- Outcome of variant-1 `handleSrc`: the loop exited on a non-nil error
from `Next` (`ret`), or the fuel ran out (`fuelOut`). Records the chain
outputs per item and how many `Next` calls were made. -/
inductive HRes1 where
  | ret (items : List GoVal) (nextCalls : Nat)
  | fuelOut (items : List GoVal) (nextCalls : Nat)
deriving DecidableEq

/-- Variant-1 `handleSrc` loop:
`for d, err := src.Next(); err == nil; d, err = src.Next() { chain }`.
`k` counts the `Next` calls already made. -/
def handleSrcLoop1 (hs : List Hdl1) (src : Src) : Nat → Nat → HRes1
  | k, 0 => .fuelOut [] k
  | k, fuel + 1 =>
    let r := src k
    match r.2 with
    | some _ => .ret [] (k + 1)
    | none =>
      let d1 := chainLoop1 hs r.1
      match handleSrcLoop1 hs src (k + 1) fuel with
      | .ret items n => .ret (d1 :: items) n
      | .fuelOut items n => .fuelOut (d1 :: items) n

/-- Variant-1 `handleSrc`: returns at once when the handler chain was never
initialized, otherwise drains the source through the chain. -/
def handleSrc1 (ohs : Option (List Hdl1)) (src : Src) (f : Nat) : HRes1 :=
  match ohs with
  | none => .ret [] 0
  | some hs => handleSrcLoop1 hs src 0 f

/-- Outcome of variant-2 `handleSrc`: early nil return (nil handler
chain), return of a non-nil error, or fuel exhaustion. -/
inductive HRes2 where
  | retNil (nextCalls : Nat)
  | ret (e : GoErr) (nextCalls : Nat)
  | fuelOut (nextCalls : Nat)
deriving DecidableEq

/-- Variant-2 `handleSrc` loop:
`for d, err := src.Next(); ; d, err = src.Next() { chain; if err != nil return err }`.
The chain replaces `err` with the last handler's returned error. -/
def handleSrcLoop2 (hs : List Hdl2) (src : Src) : Nat → Nat → HRes2
  | k, 0 => .fuelOut k
  | k, fuel + 1 =>
    let p := chainLoop2 hs (src k)
    match p.2 with
    | some e => .ret e (k + 1)
    | none => handleSrcLoop2 hs src (k + 1) fuel

/-- Variant-2 `handleSrc`. -/
def handleSrc2 (ohs : Option (List Hdl2)) (src : Src) (f : Nat) : HRes2 :=
  match ohs with
  | none => .retNil 0
  | some hs => handleSrcLoop2 hs src 0 f

/-- Whether, under error predicate `ec`, the fail-fast drain loop moves
past source `s` on to the next pending source: its `handleSrc` returns
within the fuel and the returned error (if any) is one `ErrCheck`
continues on. -/
def goesOn (ec : Option GoErr → Bool) (ohs : Option (List Hdl2)) (g : Nat) (s : Src) : Bool :=
  match handleSrc2 ohs s g with
  | .retNil _ => true
  | .ret e _ => ec (some e)
  | .fuelOut _ => false

/-- Exit mode of the variant-1 drain loop: `ok` = `popSrc` returned nil
and the loop broke; `panicked` = `popSrc` hit the initialized empty
queue; `fuelOut` = some `handleSrc` exhausted its fuel. -/
inductive Out1 where
  | ok
  | panicked
  | fuelOut
deriving DecidableEq

structure Drain1Res where
  out : Out1
  popped : List Src
  nextCalls : Nat
  todo : Option (List Src)

/-- Variant-1 drain loop over an initialized `todoSrc` list; mirrors
`src := h.popSrc(); if src == nil break; h.handleSrc(src)` — there is no
`srcDone` call in this variant's `Run`. -/
def drain1List (ohs : Option (List Hdl1)) (f : Nat) : List Src → Drain1Res
  | [] => ⟨.panicked, [], 0, some []⟩
  | s :: rest =>
    match handleSrc1 ohs s f with
    | .fuelOut _ n => ⟨.fuelOut, [s], n, some rest⟩
    | .ret _ n =>
      let r := drain1List ohs f rest
      ⟨r.out, s :: r.popped, n + r.nextCalls, r.todo⟩

/-- Variant-1 drain loop from the `todoSrc` field (nil pointer included). -/
def drain1 (ohs : Option (List Hdl1)) (f : Nat) : Option (List Src) → Drain1Res
  | none => ⟨.ok, [], 0, none⟩
  | some l => drain1List ohs f l

/-- The map assignment `results[handler.ID()] = handler.Result()`:
overwrite the binding if the key is present, else append it. -/
def mapUpsert : List (String × GoVal) → String → GoVal → List (String × GoVal)
  | [], k, v => [(k, v)]
  | (k1, v1) :: t, k, v =>
    if k1 = k then (k, v) :: t else (k1, v1) :: mapUpsert t k v

/-- The result-aggregation iteration of variant-1 `Run`:
`for e := h.handlers.Front(); e != nil; e = e.Next() { results[ID] = Result() }`. -/
def buildResults (hs : List Hdl1) : List (String × GoVal) :=
  hs.foldl (fun m h => mapUpsert m h.id h.result) []

/-- The post-drain block of variant-1 `Run`: the aggregation step runs
only when the drain loop broke normally (`popSrc` returned nil) and both
`resultHandler` and `handlers` are non-nil; it then hands the assembled
mapping to the result handler (one recorded invocation). -/
def resultStep (o : Out1) (orh : Option Hdl1) (ohs : Option (List Hdl1)) :
    List (List (String × GoVal)) :=
  match o, orh, ohs with
  | .ok, some _, some hs => [buildResults hs]
  | _, _, _ => []

/-- Pipeline state, variant 1 (`handlers.go`). -/
structure HState1 where
  todoSrc : Option (List Src)
  doneSrc : Option (List Src)
  handlers : Option (List Hdl1)
  resultHandler : Option Hdl1
  state : Status

/-- Observations of one variant-1 `Run` call: exit mode, sources popped in
order, total `Next` calls, and the mappings handed to the result handler
(one entry per invocation; its own output is discarded). -/
structure Run1Res where
  out : Out1
  popped : List Src
  nextCalls : Nat
  resultCalls : List (List (String × GoVal))

/-- Variant-1 `Run`: reject when already `StatusRunning`, set
`StatusRunning` (never reset afterwards — no transition to `StatusStop`),
drain, then run the aggregation block only when the loop broke normally
and both `resultHandler` and `handlers` are non-nil. `doneSrc` is never
touched. -/
def run1 (st : HState1) (f : Nat) : Run1Res × HState1 :=
  if st.state = Status.running then (⟨.ok, [], 0, []⟩, st)
  else
    let st1 : HState1 := { st with state := Status.running }
    let d := drain1 st1.handlers f st1.todoSrc
    let st2 : HState1 := { st1 with todoSrc := d.todo }
    (⟨d.out, d.popped, d.nextCalls, resultStep d.out st2.resultHandler st2.handlers⟩, st2)

/-- `defaultErrFunc`: continue iff the error is nil or `io.EOF`. -/
def defaultErrFunc : Option GoErr → Bool
  | none => true
  | some .eof => true
  | some (.hard _) => false

/-- Exit mode of variant-2 `Run`. -/
inductive Out2 where
  | ok
  | alreadyRunning
  | err (e : GoErr)
  | panicked
  | fuelOut
deriving DecidableEq

structure Drain2Res where
  out : Out2
  popped : List Src
  doneAppended : List Src
  nextCalls : Nat
  todo : Option (List Src)

/-- Variant-2 drain loop: pop, `handleSrc`, `srcDone`, then
`if err != nil && !h.ErrCheck(err) { return err }`. `doneAppended` is the
trace of `srcDone` calls (a hung `handleSrc` never reaches `srcDone`). -/
def drain2List (ec : Option GoErr → Bool) (ohs : Option (List Hdl2)) (f : Nat) :
    List Src → Drain2Res
  | [] => ⟨.panicked, [], [], 0, some []⟩
  | s :: rest =>
    match handleSrc2 ohs s f with
    | .fuelOut n => ⟨.fuelOut, [s], [], n, some rest⟩
    | .retNil n =>
      let r := drain2List ec ohs f rest
      ⟨r.out, s :: r.popped, s :: r.doneAppended, n + r.nextCalls, r.todo⟩
    | .ret e n =>
      if ec (some e) then
        let r := drain2List ec ohs f rest
        ⟨r.out, s :: r.popped, s :: r.doneAppended, n + r.nextCalls, r.todo⟩
      else ⟨.err e, [s], [s], n, some rest⟩

/-- Variant-2 drain loop from the `todoSrc` field. -/
def drain2 (ec : Option GoErr → Bool) (ohs : Option (List Hdl2)) (f : Nat) :
    Option (List Src) → Drain2Res
  | none => ⟨.ok, [], [], 0, none⟩
  | some l => drain2List ec ohs f l

/-- Pipeline state, variant 2 (fail-fast file). -/
structure HState2 where
  todoSrc : Option (List Src)
  doneSrc : Option (List Src)
  handlers : Option (List Hdl2)
  state : Status
  errCheck : Option (Option GoErr → Bool)

structure Run2Res where
  out : Out2
  popped : List Src
  nextCalls : Nat

/-- Variant-2 `Run`: return the "already running" error when state is
`StatusRunning`; otherwise set `StatusRunning` (never reset), install
`defaultErrFunc` when `ErrCheck` is nil, drain, and append each
`srcDone`d source to `doneSrc` in call order. -/
def run2 (st : HState2) (f : Nat) : Run2Res × HState2 :=
  if st.state = Status.running then (⟨.alreadyRunning, [], 0⟩, st)
  else
    let ec := st.errCheck.getD defaultErrFunc
    let st1 : HState2 := { st with state := Status.running, errCheck := some ec }
    let d := drain2 ec st1.handlers f st1.todoSrc
    let st2 : HState2 :=
      { st1 with
        todoSrc := d.todo
        doneSrc := d.doneAppended.foldl srcDone st1.doneSrc }
    (⟨d.out, d.popped, d.nextCalls⟩, st2)

/-!
Model of the file sources (`FileSource`, `MultiFileSrc`). A `FileSource`
is the unread remainder of its file's contents; `bufio.ReadString` with a
fully buffered reader is `readLine`.
-/

/-- `bufio.Reader.ReadString('\x0a')`: the line up to and including the
first newline with a nil error, or — when no newline remains — the whole
remainder together with `io.EOF` (in the same call). Returns
(line, error, remaining content). -/
def readLine : List Char → List Char × Option GoErr × List Char
  | [] => ([], some .eof, [])
  | c :: rest =>
    if c = '\n' then ([c], none, rest)
    else
      let r := readLine rest
      (c :: r.1, r.2.1, r.2.2)

/-- `MultiFileSrc`: the per-file unread remainders and the index of the
active file. -/
structure MFS where
  src : List (List Char)
  index : Nat

/-- `MultiFileSrc.Next`: past the last file return (nil, io.EOF); else
read from the active file; on any error advance `index`, and suppress the
error when it is `io.EOF` and another file remains. The data read in the
erroring call is passed through unchanged. -/
def mfsNext (m : MFS) : (GoVal × Option GoErr) × MFS :=
  if h : m.index < m.src.length then
    let fs := m.src.get ⟨m.index, h⟩
    let r := readLine fs
    let src1 := m.src.set m.index r.2.2
    match r.2.1 with
    | none => ((.str ⟨r.1⟩, none), ⟨src1, m.index⟩)
    | some e =>
      let i1 := m.index + 1
      let e1 : Option GoErr := if e = .eof ∧ i1 < m.src.length then none else some e
      ((.str ⟨r.1⟩, e1), ⟨src1, i1⟩)
  else ((.nil, some .eof), m)

/-- The first `n` results of successive `mfsNext` calls. -/
def mfsTrace : MFS → Nat → List (GoVal × Option GoErr)
  | _, 0 => []
  | m, n + 1 =>
    let r := mfsNext m
    r.1 :: mfsTrace r.2 n

/-- The multi-file source over file1 = "x\n" and file2 = "y\nz"
(no trailing newline), in glob order. -/
def mfsXYZ : MFS :=
  ⟨["x\n".toList, "y\nz".toList], 0⟩

/-!
Concrete fixtures used by witnesses and counterexamples.
-/

/-- A source that is exhausted from the first call on (every `Next`
returns (nil, io.EOF)), the behaviour of a drained file source. -/
def srcEofNow : Src := fun _ => (.nil, some .eof)

/-- A second immediately exhausted source, distinct from `srcEofNow`. -/
def srcEofNow2 : Src := fun _ => (.str "s2", some .eof)

/-- A source whose every `Next` returns data together with a hard error. -/
def srcHard : Src := fun _ => (.str "x", some (.hard "boom"))

/-- Variant-2 handler returning its input with an `io.EOF` error. -/
def hEofH : Hdl2 := ⟨fun d => (d, some .eof)⟩

/-- Variant-2 identity handler returning a nil error. -/
def hIdH : Hdl2 := ⟨fun d => (d, none)⟩

/-- Variant-1 handler incrementing integer payloads, id "u". -/
def hUp : Hdl1 :=
  ⟨"u", fun v => match v with | .int n => .int (n + 1) | x => x, .int 0⟩

/-- Variant-1 handler doubling integer payloads, id "v". -/
def hDb : Hdl1 :=
  ⟨"v", fun v => match v with | .int n => .int (2 * n) | x => x, .int 0⟩

/-- Variant-1 handler with id "a" and result snapshot 1. -/
def hA1 : Hdl1 := ⟨"a", fun v => v, .int 1⟩

/-- Variant-1 handler with id "b" and result snapshot 2. -/
def hB1 : Hdl1 := ⟨"b", fun v => v, .int 2⟩

/-- A result handler (terminal sink). -/
def rh1 : Hdl1 := ⟨"rh", fun v => v, .nil⟩

/-!
Theorems. Claims C1–C10 of the specification are settled against the
embedding above; shared helper lemmas come first.
-/

theorem chainLoop1_eq_foldl (hs : List Hdl1) (d : GoVal) :
    chainLoop1 hs d = hs.foldl (fun x h => h.handle x) d := by
  induction hs generalizing d with
  | nil => rfl
  | cons h t ih => exact ih (h.handle d)

theorem chainLoop2_fst_eq_foldl (hs : List Hdl2) (p : GoVal × Option GoErr) :
    (chainLoop2 hs p).1 = hs.foldl (fun x h => (h.handle x).1) p.1 := by
  induction hs generalizing p with
  | nil => rfl
  | cons h t ih => exact ih (h.handle p.1)

theorem chainSteps_length (hs : List Hdl1) (d : GoVal) :
    (chainSteps hs d).length = hs.length := by
  induction hs generalizing d with
  | nil => rfl
  | cons h t ih => simpa [chainSteps] using ih (h.handle d)

theorem chainSteps_get_zero_fst (hs : List Hdl1) (d : GoVal)
    (h0 : 0 < (chainSteps hs d).length) :
    ((chainSteps hs d).get ⟨0, h0⟩).1 = d := by
  cases hs with
  | nil => simp [chainSteps] at h0
  | cons h t => rfl

theorem chainSteps_adjacent (hs : List Hdl1) (d : GoVal) (k : Nat)
    (hk : k + 1 < (chainSteps hs d).length) :
    ((chainSteps hs d).get ⟨k + 1, hk⟩).1
      = ((chainSteps hs d).get ⟨k, Nat.lt_of_succ_lt hk⟩).2 := by
  induction hs generalizing d k with
  | nil => simp [chainSteps] at hk
  | cons h t ih =>
    cases k with
    | zero =>
      have h0 : 0 < (chainSteps t (h.handle d)).length := by
        have := hk
        simp [chainSteps] at this
        omega
      have hget : ((chainSteps (h :: t) d).get ⟨1, hk⟩)
          = ((chainSteps t (h.handle d)).get ⟨0, h0⟩) := rfl
      rw [hget, chainSteps_get_zero_fst]
      rfl
    | succ k1 =>
      have hk1 : k1 + 1 < (chainSteps t (h.handle d)).length := by
        have := hk
        simp [chainSteps] at this
        omega
      have hg1 : ((chainSteps (h :: t) d).get ⟨k1 + 2, hk⟩)
          = ((chainSteps t (h.handle d)).get ⟨k1 + 1, hk1⟩) := rfl
      have hg2 : ((chainSteps (h :: t) d).get ⟨k1 + 1, Nat.lt_of_succ_lt hk⟩)
          = ((chainSteps t (h.handle d)).get ⟨k1, Nat.lt_of_succ_lt hk1⟩) := rfl
      rw [hg1, hg2]
      exact ih (h.handle d) k1 hk1

theorem foldl_addSrc2_some (l acc : List Src) :
    List.foldl addSrc2 (some acc) l = some (acc ++ l) := by
  induction l generalizing acc with
  | nil => simp
  | cons s t ih => simpa [addSrc2] using ih (acc ++ [s])

theorem addAll2_cons (s : Src) (t : List Src) : addAll2 (s :: t) = some (s :: t) := by
  simpa [addAll2, addSrc2, List.foldl] using foldl_addSrc2_some t [s]

theorem drain2List_popped_of_goesOn (ec : Option GoErr → Bool) (ohs : Option (List Hdl2))
    (g : Nat) (l : List Src) (hterm : ∀ s ∈ l, goesOn ec ohs g s = true) :
    (drain2List ec ohs g l).popped = l := by
  induction l with
  | nil => rfl
  | cons s t ih =>
    have hs := hterm s (List.mem_cons_self s t)
    have ht : ∀ x ∈ t, goesOn ec ohs g x = true :=
      fun x hx => hterm x (List.mem_cons_of_mem s hx)
    cases hr : handleSrc2 ohs s g with
    | retNil n => simp [drain2List, hr, ih ht]
    | ret e n =>
      have hec : ec (some e) = true := by simpa [goesOn, hr] using hs
      simp [drain2List, hr, hec, ih ht]
    | fuelOut n => simp [goesOn, hr] at hs

theorem drain1List_no_handlers (f : Nat) (l : List Src) :
    (drain1List none f l).popped = l ∧ (drain1List none f l).nextCalls = 0 := by
  induction l with
  | nil => exact ⟨rfl, rfl⟩
  | cons s t ih => simpa [drain1List, handleSrc1] using ih

theorem drain2List_no_handlers (ec : Option GoErr → Bool) (f : Nat) (l : List Src) :
    (drain2List ec none f l).popped = l ∧ (drain2List ec none f l).nextCalls = 0 := by
  induction l with
  | nil => exact ⟨rfl, rfl⟩
  | cons s t ih => simpa [drain2List, handleSrc2] using ih

theorem resultStep_no_handlers (o : Out1) (orh : Option Hdl1) :
    resultStep o orh none = [] := by
  cases o <;> cases orh <;> rfl

theorem run1_doneSrc_unchanged (st : HState1) (f : Nat) :
    (run1 st f).2.doneSrc = st.doneSrc := by
  unfold run1
  split
  · rfl
  · rfl

/-- Queue-transfer invariant of the variant-2 drain loop: the popped
sources are the head prefix of the pending list; every popped source
whose `handleSrc` returned is `srcDone`d exactly once, in pop order (a
source still in flight when the fuel runs out is in neither queue); the
pending remainder is exactly the unpopped suffix. -/
theorem drain2List_invariant (ec : Option GoErr → Bool) (ohs : Option (List Hdl2))
    (f : Nat) (l : List Src) :
    ((drain2List ec ohs f l).doneAppended = (drain2List ec ohs f l).popped
      ∨ ((drain2List ec ohs f l).out = .fuelOut
          ∧ ∃ s0, (drain2List ec ohs f l).popped
              = (drain2List ec ohs f l).doneAppended ++ [s0]))
    ∧ (drain2List ec ohs f l).popped = l.take (drain2List ec ohs f l).popped.length
    ∧ (drain2List ec ohs f l).todo = some (l.drop (drain2List ec ohs f l).popped.length) := by
  induction l with
  | nil => exact ⟨Or.inl rfl, rfl, rfl⟩
  | cons s t ih =>
    cases hr : handleSrc2 ohs s f with
    | fuelOut n =>
      refine ⟨Or.inr ⟨by simp [drain2List, hr], s, by simp [drain2List, hr]⟩, ?_, ?_⟩
      · simp [drain2List, hr]
      · simp [drain2List, hr]
    | retNil n =>
      obtain ⟨ihd, ihp, iht⟩ := ih
      refine ⟨?_, ?_, ?_⟩
      · rcases ihd with h1 | ⟨h1, s0, h2⟩
        · exact Or.inl (by simp [drain2List, hr, h1])
        · exact Or.inr ⟨by simp [drain2List, hr, h1], s0, by simp [drain2List, hr, h2]⟩
      · simpa [drain2List, hr, List.take_succ_cons] using ihp
      · simpa [drain2List, hr, List.drop_succ_cons] using iht
    | ret e n =>
      by_cases hec : ec (some e)
      · obtain ⟨ihd, ihp, iht⟩ := ih
        refine ⟨?_, ?_, ?_⟩
        · rcases ihd with h1 | ⟨h1, s0, h2⟩
          · exact Or.inl (by simp [drain2List, hr, hec, h1])
          · exact Or.inr ⟨by simp [drain2List, hr, hec, h1], s0,
              by simp [drain2List, hr, hec, h2]⟩
        · simpa [drain2List, hr, hec, List.take_succ_cons] using ihp
        · simpa [drain2List, hr, hec, List.drop_succ_cons] using iht
      · exact ⟨Or.inl (by simp [drain2List, hr, hec]), by simp [drain2List, hr, hec],
          by simp [drain2List, hr, hec]⟩

/-- Claim C1 (code bug): the claim says popping the initialized-but-empty
pending queue returns the no-more-sources signal and `Run` exits its
drain loop normally. The code instead panics there: `popSrc` passes the
nil `Front()` of the emptied queue to `list.Remove` and dereferences its
`Value`. Consequently a run that drained one registered source ends in a
panic, in both variants, instead of terminating normally. -/
theorem run_panics_on_drained_queue :
    popSrc (some ([] : List Src)) = .panicked
    ∧ (run2 ⟨some [srcEofNow], none, none, .init, none⟩ 3).1.out = .panicked
    ∧ (run1 ⟨some [srcEofNow], none, none, none, .init⟩ 3).1.out = .panicked :=
  ⟨rfl, rfl, rfl⟩

/-- Claim C2, counterexample: over file1 = "x\n" and file2 = "y\nz" the
second `Next` call yields the empty-string item with a nil error — an
item outside the claimed sequence "x\n", "y\n", "z" — because the call
that exhausts file1 returns its empty residual data with the suppressed
`io.EOF`. -/
theorem multiFileSrc_yields_extra_empty_item :
    (mfsTrace mfsXYZ 4).get? 1 = some (.str "", none)
    ∧ ¬(GoVal.str "" = .str "x\n" ∨ GoVal.str "" = .str "y\n" ∨ GoVal.str "" = .str "z") := by
  decide

/-- Claim C2, amended: successive `Next` calls on the multi-file source
over "x\n" and "y\nz" yield exactly "x\n", "", "y\n", "z" in that order —
the extra "" arising at the first source's exhaustion boundary — with
only the last item paired with the end-of-stream error and no other
error produced. -/
theorem multiFileSrc_trace_with_boundary_blank :
    mfsTrace mfsXYZ 4
      = [(.str "x\n", none), (.str "", none), (.str "y\n", none), (.str "z", some .eof)] := by
  decide

/-- Claim C3 (code bug): in the fail-fast variant, `handleSrc` overwrites
the error returned by `src.Next()` with the last handler's returned
error whenever the chain is non-empty. At the failing input — a source
whose read returns a hard error, with one registered handler returning
`io.EOF` — the hard error is replaced by `io.EOF`, `ErrCheck` lets the
run continue, the supposedly-left-pending second source is popped too,
and the run never returns the hard error (it ends in the empty-pop
panic). With a handler returning a nil error, the loop cannot even see
the source's end-of-stream: it re-reads forever (fuel exhaustion at any
fuel, here 100). -/
theorem handleSrc_overwrites_source_error :
    handleSrc2 (some [hEofH]) srcHard 5 = .ret .eof 1
    ∧ (run2 ⟨some [srcHard, srcEofNow2], none, some [hEofH], .init, none⟩ 9).1.out = .panicked
    ∧ (run2 ⟨some [srcHard, srcEofNow2], none, some [hEofH], .init, none⟩ 9).1.popped
        = [srcHard, srcEofNow2]
    ∧ handleSrcLoop2 [hIdH] srcEofNow 0 100 = .fuelOut 100 :=
  ⟨rfl, rfl, rfl, rfl⟩

/-- Claim C4 (code bug): neither variant ever assigns `StatusStop`, so
after a completed run the state is still `StatusRunning` and a
subsequent non-concurrent `Run` call is rejected — the error variant
returns the "already running" error and the void variant silently does
nothing (here: the first run invokes the result handler, the rerun does
not) — contradicting the claim (and the code's own comment) that
Init/Stopped states may run again. -/
theorem rerun_after_completion_rejected :
    (run2 ⟨none, none, none, .init, none⟩ 1).1.out = .ok
    ∧ (run2 ⟨none, none, none, .init, none⟩ 1).2.state = .running
    ∧ (run2 (run2 ⟨none, none, none, .init, none⟩ 1).2 1).1.out = .alreadyRunning
    ∧ (run1 ⟨none, none, some [hA1], some rh1, .init⟩ 1).1.resultCalls = [[("a", .int 1)]]
    ∧ (run1 (run1 ⟨none, none, some [hA1], some rh1, .init⟩ 1).2 1).1.resultCalls = [] :=
  ⟨rfl, rfl, rfl, rfl, rfl⟩

/-- Claim C5, counterexample: in the void variant (`handlers.go`) `Run`
never calls `srcDone`. A pipeline with one registered source pops it and
processes it fully, yet the done queue is still the nil pointer
afterwards — the source was not appended to the completed queue, so the
claimed invariant fails for this variant. -/
theorem voidVariant_never_appends_done :
    (run1 ⟨some [srcEofNow], none, none, none, .init⟩ 3).1.popped = [srcEofNow]
    ∧ (run1 ⟨some [srcEofNow], none, none, none, .init⟩ 3).2.doneSrc = none
    ∧ (run1 ⟨some [srcEofNow], none, none, none, .init⟩ 3).2.doneSrc ≠ some [srcEofNow] :=
  ⟨rfl, rfl, fun h => Option.noConfusion h⟩

/-- Claim C5, amended: in the error-returning variant every popped source
whose processing returns is appended to the done queue exactly once, in
pop order, and never moves back to pending (the pending remainder is
exactly the unpopped suffix; a source still being processed when the
fuel runs out is in neither queue). In the void variant, `Run` never
touches the done queue at all. -/
theorem popped_sources_transfer_to_done (st : HState1) (f : Nat)
    (ec : Option GoErr → Bool) (ohs : Option (List Hdl2)) (g : Nat) (l : List Src) :
    (run1 st f).2.doneSrc = st.doneSrc
    ∧ ((drain2List ec ohs g l).doneAppended = (drain2List ec ohs g l).popped
        ∨ ((drain2List ec ohs g l).out = .fuelOut
            ∧ ∃ s0, (drain2List ec ohs g l).popped
                = (drain2List ec ohs g l).doneAppended ++ [s0]))
    ∧ (drain2List ec ohs g l).popped = l.take (drain2List ec ohs g l).popped.length
    ∧ (drain2List ec ohs g l).todo = some (l.drop (drain2List ec ohs g l).popped.length) :=
  ⟨run1_doneSrc_unchanged st f, drain2List_invariant ec ohs g l⟩

/-- Claim C6: in the handler chain loop, the item fed to handler k+1 is
exactly the value handler k returned for it; every handler of the chain
is visited once per item; and the value leaving the chain is the left
fold of the handlers' `Handle` functions over the source item, in
registration order — in the void variant, and likewise (first
components) in the fail-fast variant. -/
theorem handler_chain_fold_correct (hs : List Hdl1) (d : GoVal) (k : Nat)
    (hs2 : List Hdl2) (p : GoVal × Option GoErr)
    (hk : k + 1 < (chainSteps hs d).length) :
    ((chainSteps hs d).get ⟨k + 1, hk⟩).1
        = ((chainSteps hs d).get ⟨k, Nat.lt_of_succ_lt hk⟩).2
    ∧ (chainSteps hs d).length = hs.length
    ∧ chainLoop1 hs d = hs.foldl (fun x h => h.handle x) d
    ∧ (chainLoop2 hs2 p).1 = hs2.foldl (fun x h => (h.handle x).1) p.1 :=
  ⟨chainSteps_adjacent hs d k hk, chainSteps_length hs d,
    chainLoop1_eq_foldl hs d, chainLoop2_fst_eq_foldl hs2 p⟩

/-- Witness for C6 at a two-handler chain on the item 3: handler "v"
receives exactly what handler "u" returned, and the chain output is the
fold of the two transforms. -/
theorem handler_chain_fold_correct_witness :
    ((chainSteps [hUp, hDb] (.int 3)).get ⟨0 + 1, by decide⟩).1
        = ((chainSteps [hUp, hDb] (.int 3)).get ⟨0, by decide⟩).2
    ∧ (chainSteps [hUp, hDb] (.int 3)).length = [hUp, hDb].length
    ∧ chainLoop1 [hUp, hDb] (.int 3) = [hUp, hDb].foldl (fun x h => h.handle x) (.int 3)
    ∧ (chainLoop2 [hIdH] (.int 5, none)).1
        = [hIdH].foldl (fun x h => (h.handle x).1) (GoVal.int 5, (none : Option GoErr)).1 :=
  handler_chain_fold_correct [hUp, hDb] (.int 3) 0 [hIdH] (.int 5, none) (by decide)

/-- Claim C7, counterexample: in the void variant (`handlers.go`)
registration itself faults. `AddSrc`'s lazy initialization allocates
`new(safeList)`, whose embedded `*list.List` is the nil pointer, and the
unconditional `PushBack` then dereferences that nil receiver — a panic,
on a fresh pipeline as on any queue this variant's own code can produce.
No sequence of sources can ever be registered there, so no run of this
variant processes registered sources, in FIFO order or any other. -/
theorem registration_panics_in_void_variant :
    addSrc1 none srcEofNow = none ∧ addSrc1 (some none) srcEofNow2 = none :=
  ⟨rfl, rfl⟩

/-- Claim C7, amended: in the fail-fast variant — the one whose `AddSrc`
actually allocates the queue (`newSafeList`) and so can register sources
— `Run` pops and processes the sources registered before the run in
exactly their registration (FIFO) order: the drain pops the head of the
queue, fully processes it, and only then pops the next, so whenever each
source's processing returns within the fuel with an error `ErrCheck`
continues on, the trace of popped sources equals the registration
sequence. -/
theorem run_processes_sources_fifo (srcs : List Src) (ohs : Option (List Hdl2))
    (g : Nat)
    (hterm : ∀ s ∈ srcs, goesOn defaultErrFunc ohs g s = true) :
    (run2 ⟨addAll2 srcs, none, ohs, .init, none⟩ g).1.popped = srcs := by
  have hpop : (drain2 defaultErrFunc ohs g (addAll2 srcs)).popped = srcs := by
    cases srcs with
    | nil => rfl
    | cons s t =>
      rw [addAll2_cons]
      exact drain2List_popped_of_goesOn defaultErrFunc ohs g (s :: t) hterm
  simpa [run2, drain2] using hpop

/-- Witness for C7: two immediately-exhausted sources registered behind
one handler are popped in registration order. -/
theorem run_processes_sources_fifo_witness :
    (run2 ⟨addAll2 [srcEofNow, srcEofNow2], none, some [hEofH], .init, none⟩ 3).1.popped
      = [srcEofNow, srcEofNow2] :=
  run_processes_sources_fifo [srcEofNow, srcEofNow2] (some [hEofH]) 3 (by decide)

/-- Claim C8, counterexample: with handlers "a" and "b" and a result
handler set, a run that drained one registered source panics at the
final empty pop before reaching the aggregation block, so the result
handler is never invoked — the claim as stated fails for such runs. -/
theorem result_handler_skipped_after_sources :
    (run1 ⟨some [srcEofNow], none, some [hA1, hB1], some rh1, .init⟩ 3).1.resultCalls = []
    ∧ (run1 ⟨some [srcEofNow], none, some [hA1, hB1], some rh1, .init⟩ 3).1.out = .panicked :=
  ⟨rfl, rfl⟩

/-- Claim C8, amended: in a run that reaches the aggregation step — one
whose pending queue was never initialized, since a drained initialized
queue panics first — with registered handlers of ids "a" and "b" and a
result handler set, the pipeline builds exactly the mapping
{"a" ↦ resultA, "b" ↦ resultB} and invokes the result handler exactly
once, with that mapping as its single input; its output is discarded. -/
theorem result_mapping_exact_when_no_sources (ha hb : GoVal → GoVal)
    (ra rb : GoVal) (rh : Hdl1) (f : Nat) :
    (run1 ⟨none, none, some [⟨"a", ha, ra⟩, ⟨"b", hb, rb⟩], some rh, .init⟩ f).1.resultCalls
        = [[("a", ra), ("b", rb)]]
    ∧ (run1 ⟨none, none, some [⟨"a", ha, ra⟩, ⟨"b", hb, rb⟩], some rh, .init⟩ f).1.popped
        = [] := by
  constructor
  · simp [run1, drain1, resultStep, buildResults, mapUpsert]
  · simp [run1, drain1]

/-- Claim C9: a `Run` call on a pipeline already in `StatusRunning`
returns at once — silently in the void variant, with the distinct
"already running" error in the error variant — popping no source,
making no `Next` call, invoking no result handler, and leaving the
whole pipeline state (queues included) unchanged. -/
theorem run_while_running_noop (stA : HState1) (stB : HState2) (f g : Nat)
    (hA : stA.state = .running) (hB : stB.state = .running) :
    run1 stA f = (⟨.ok, [], 0, []⟩, stA)
    ∧ run2 stB g = (⟨.alreadyRunning, [], 0⟩, stB) := by
  constructor
  · unfold run1
    rw [if_pos hA]
  · unfold run2
    rw [if_pos hB]

/-- Witness for C9 at concrete already-running pipelines holding a
pending source: the call changes nothing. -/
theorem run_while_running_noop_witness :
    run1 ⟨some [srcEofNow], none, none, none, .running⟩ 2
        = (⟨.ok, [], 0, []⟩, ⟨some [srcEofNow], none, none, none, .running⟩)
    ∧ run2 ⟨some [srcEofNow], none, none, .running, none⟩ 2
        = (⟨.alreadyRunning, [], 0⟩, ⟨some [srcEofNow], none, none, .running, none⟩) :=
  run_while_running_noop ⟨some [srcEofNow], none, none, none, .running⟩
    ⟨some [srcEofNow], none, none, .running, none⟩ 2 2 rfl rfl

/-- Claim C10: when no handler was ever registered (nil chain), `Run`
still pops every source the pending queue holds — whatever its contents,
the nil pointer included — but `handleSrc` returns before any `Next`
call, so the sources stay completely unconsumed; and in the
result-handler variant the aggregation block's `handlers != nil` guard
keeps the result handler uninvoked even though one is set. Both variants
behave so. -/
theorem run_without_handlers_pops_all_unconsumed (otodo : Option (List Src))
    (rh : Hdl1) (f g : Nat) :
    (run1 ⟨otodo, none, none, some rh, .init⟩ f).1.popped = otodo.getD []
    ∧ (run1 ⟨otodo, none, none, some rh, .init⟩ f).1.nextCalls = 0
    ∧ (run1 ⟨otodo, none, none, some rh, .init⟩ f).1.resultCalls = []
    ∧ (run2 ⟨otodo, none, none, .init, none⟩ g).1.popped = otodo.getD []
    ∧ (run2 ⟨otodo, none, none, .init, none⟩ g).1.nextCalls = 0 := by
  cases otodo with
  | none => exact ⟨rfl, rfl, rfl, rfl, rfl⟩
  | some l =>
    obtain ⟨hp1, hn1⟩ := drain1List_no_handlers f l
    obtain ⟨hp2, hn2⟩ := drain2List_no_handlers defaultErrFunc g l
    exact ⟨by simpa [run1, drain1] using hp1, by simpa [run1, drain1] using hn1,
      by simp [run1, drain1, resultStep_no_handlers],
      by simpa [run2, drain2] using hp2, by simpa [run2, drain2] using hn2⟩

end Handlers
